import Mathlib

/-!
Shallow embedding of `traffic/rdma_stress_fixture.cc` from rdma-unit-test.

The file models the three algorithmic parts of `RdmaStressFixture`:

* `setUpRcClientsQPs` — bounds-checked cross-linking of two `QpState`
  records followed by the RC handshake (`SetUpRcClientsQPs`);
* `createSetUpRcQps` — the bulk create-and-pair loop (`CreateSetUpRcQps`);
* `pollAndAckAsyncEvents` / `haltExecution` — the single-shot async event
  poll/read/ack cycle and the drain loop of `HaltExecution`.

External effects are made explicit: clients are lists of `QpState` records
indexed by QP id (a `QpState*` pointer becomes a `(client, qpId)` index
pair), the provider handshake `ibv_.SetUpRcQp` is an oracle function, and
the async event channel is a state record whose oracle fields (`pollErrno`,
`readRace`) drive the failure branches of `poll` and
`ibv_get_async_event`.
-/

namespace RdmaUnitTest

/-- `absl::Status` values produced in the modelled fragment: `OkStatus`,
`InvalidArgumentError`, `InternalError`, `UnavailableError`, each error
carrying its message string. -/
inductive Status where
  | ok
  | invalidArgument (msg : String)
  | internal (msg : String)
  | unavailable (msg : String)
deriving DecidableEq, Repr

/-- `absl::Status::message()`. -/
def Status.message : Status → String
  | .ok => ""
  | .invalidArgument m => m
  | .internal m => m
  | .unavailable m => m

/-- Index-based reference to a `QpState`: the owning client and the QP id
within that client (the shallow form of a `QpState*`). -/
structure QpRef where
  client : Nat
  qpId : Nat
deriving DecidableEq, Repr

/-- The part of `QpState` the fragment touches: the mutable back-reference
set by `set_remote_qp_state`. -/
structure QpState where
  remote : Option QpRef
deriving DecidableEq, Repr

/-- A `Client`'s QP collection: ordered, append-only, indexed from 0
(`num_qps`, `GetQpState`, `CreateQps`). -/
abbrev ClientSt := List QpState

/-- The fixture's view of all clients: indexed by client id. -/
abbrev FixtureSt := List ClientSt

/-- Look up a client's QP list (out-of-range reads give the empty list). -/
def getClient (f : FixtureSt) (c : Nat) : ClientSt := f.getD c []

/-- `Client::num_qps()`. -/
def num_qps (f : FixtureSt) (c : Nat) : Nat := (getClient f c).length

/-- The `remote_qp_state` field of the QP `q` of client `c`. -/
def getRemote (f : FixtureSt) (c q : Nat) : Option QpRef :=
  ((getClient f c).getD q ⟨none⟩).remote

/-- `GetQpState(q)->set_remote_qp_state(r)` on client `c`. -/
def setRemoteQpState (f : FixtureSt) (c q : Nat) (r : QpRef) : FixtureSt :=
  f.set c ((getClient f c).set q ⟨some r⟩)

/-- `Client::CreateQps(n, is_rc)`: appends `n` fresh QP records. -/
def createQps (f : FixtureSt) (c : Nat) (n : Nat) : FixtureSt :=
  f.set c (getClient f c ++ List.replicate n ⟨none⟩)

/-- The provider handshake `ibv_.SetUpRcQp`, abstracted as an oracle: it
observes the fixture state at the moment of the call and the two QPs being
connected, and returns the handshake's `absl::Status`. -/
abbrev Handshake := FixtureSt → QpRef → QpRef → Status

/-- `RdmaStressFixture::SetUpRcClientsQPs(local, local_qp_id, remote,
remote_qp_id)`: bounds check, unconditional cross-link of the two
`QpState` records, then the RC handshake, whose status is returned. -/
def setUpRcClientsQPs (hs : Handshake) (f : FixtureSt)
    (localIdx localQpId remoteIdx remoteQpId : Nat) : Status × FixtureSt :=
  if localQpId ≥ num_qps f localIdx ∨ remoteQpId ≥ num_qps f remoteIdx then
    (Status.invalidArgument "Please create qps before setting up the connection!", f)
  else
    let f1 := setRemoteQpState f localIdx localQpId ⟨remoteIdx, remoteQpId⟩
    let f2 := setRemoteQpState f1 remoteIdx remoteQpId ⟨localIdx, localQpId⟩
    (hs f2 ⟨localIdx, localQpId⟩ ⟨remoteIdx, remoteQpId⟩, f2)

/-- One iteration of the `CreateSetUpRcQps` loop body at index `qpId`:
create one RC QP on each client, then issue the two `SetUpRcClientsQPs`
calls (initiator→target and target→initiator); `EXPECT_OK` only logs a
failure, so the returned statuses are dropped and the loop continues. -/
def createSetUpIteration (hs : Handshake) (f : FixtureSt)
    (initiator target qpId : Nat) : FixtureSt :=
  let fa := createQps f initiator 1
  let fb := createQps fa target 1
  let fc := (setUpRcClientsQPs hs fb initiator qpId target qpId).2
  (setUpRcClientsQPs hs fc target qpId initiator qpId).2

/-- The `CreateSetUpRcQps` loop over indices
`qpId, qpId+1, …, qpId+remaining-1`. -/
def createSetUpLoop (hs : Handshake) (f : FixtureSt) (initiator target : Nat) :
    Nat → Nat → FixtureSt
  | _, 0 => f
  | qpId, remaining + 1 =>
    createSetUpLoop hs (createSetUpIteration hs f initiator target qpId)
      initiator target (qpId + 1) remaining

/-- `RdmaStressFixture::CreateSetUpRcQps(initiator, target,
qps_per_client)`. -/
def createSetUpRcQps (hs : Handshake) (f : FixtureSt)
    (initiator target : Nat) (qps_per_client : Nat) : FixtureSt :=
  createSetUpLoop hs f initiator target (num_qps f initiator) qps_per_client

/-- An `ibv_async_event`: the fragment only reads its `event_type`. -/
structure AsyncEvent where
  event_type : Nat
deriving DecidableEq, Repr

/-- The async event channel (`context_->async_fd`) together with the
oracle fields that drive its failure modes: `queue` holds the pending
events in arrival order, `acked` records every `ibv_ack_async_event` call
in order, `pollErrno = some e` makes `poll` fail with errno `e`, and
`readRace` makes `ibv_get_async_event` lose the race and find no event
even though `poll` reported readiness. -/
structure EventChannel where
  queue : List AsyncEvent
  acked : List AsyncEvent
  pollErrno : Option Nat
  readRace : Bool
deriving DecidableEq, Repr

/-- The return value of `poll(&poll_fd, 1, 0)`: negative on failure, `0`
when nothing is ready within the zero timeout, positive when the fd is
ready (also in the `readRace` state, where readiness is stale). -/
def pollRet (ch : EventChannel) : Int :=
  match ch.pollErrno with
  | some _ => -1
  | none => if ch.queue.isEmpty && !ch.readRace then 0 else 1

/-- `ibv_get_async_event`: returns the oldest queued event and the updated
channel, or `none` (nonzero return in C) when no event is available. -/
def ibvGetAsyncEvent (ch : EventChannel) : Option AsyncEvent × EventChannel :=
  if ch.readRace then (none, ch)
  else
    match ch.queue with
    | [] => (none, ch)
    | e :: rest => (some e, { ch with queue := rest })

/-- `ibv_ack_async_event`: records the acknowledgment. -/
def ibvAckAsyncEvent (ch : EventChannel) (e : AsyncEvent) : EventChannel :=
  { ch with acked := ch.acked ++ [e] }

/-- The error status built for a drained event: an `InternalError`
carrying the event's type tag in its message. -/
def eventErrorStatus (e : AsyncEvent) : Status :=
  Status.internal ("Verbs async event received event type: " ++ toString e.event_type)

/-- `RdmaStressFixture::PollAndAckAsyncEvents()`: zero-timeout poll; `0`
→ `OkStatus`; negative → `InternalError` with errno; otherwise read one
event (`UnavailableError` on the none-available race) and acknowledge it
before returning the event's error status. -/
def pollAndAckAsyncEvents (ch : EventChannel) : Status × EventChannel :=
  let ret := pollRet ch
  if ret = 0 then (Status.ok, ch)
  else if ret < 0 then
    (Status.internal
      ("poll failed with errno " ++ toString (ch.pollErrno.getD 0) ++ " on async event fd."),
     ch)
  else
    match ibvGetAsyncEvent ch with
    | (none, ch1) => (Status.unavailable "Async event doesn\x27t exist.", ch1)
    | (some event, ch1) =>
      let status := eventErrorStatus event
      (status, ibvAckAsyncEvent ch1 event)

/-- `n` successive calls to `PollAndAckAsyncEvents`, collecting the
returned statuses in order. -/
def pollCalls : Nat → EventChannel → List Status × EventChannel
  | 0, ch => ([], ch)
  | n + 1, ch =>
    let r := pollAndAckAsyncEvents ch
    let rest := pollCalls n r.2
    (r.1 :: rest.1, rest.2)

/-- Observable steps of `HaltExecution`, in program order. -/
inductive HaltAction where
  | dumpPendingOps
  | pollAndAck (result : Status)
  | logError (msg : String)
deriving DecidableEq, Repr

/-- The `while (true)` drain loop of `HaltExecution`, run with explicit
fuel (the C loop is unbounded; `none` means the fuel ran out before the
loop exited). Each iteration calls `PollAndAckAsyncEvents`, breaks on
`OkStatus`, and otherwise logs the error's message. -/
def haltDrain : Nat → EventChannel → Option (List HaltAction × EventChannel)
  | 0, _ => none
  | fuel + 1, ch =>
    let r := pollAndAckAsyncEvents ch
    if r.1 = Status.ok then some ([HaltAction.pollAndAck r.1], r.2)
    else
      match haltDrain fuel r.2 with
      | none => none
      | some (tr, ch2) =>
        some (HaltAction.pollAndAck r.1 :: HaltAction.logError r.1.message :: tr, ch2)

/-- `RdmaStressFixture::HaltExecution(initiator)`: dump the client's
pending operations once, then drain the async event queue to empty. The
result is the trace of observable steps and the final channel state. -/
def haltExecution (fuel : Nat) (ch : EventChannel) :
    Option (List HaltAction × EventChannel) :=
  match haltDrain fuel ch with
  | none => none
  | some (tr, ch1) => some (HaltAction.dumpPendingOps :: tr, ch1)

/-! ### Helper lemmas on the fixture state -/

theorem getClient_set (f : FixtureSt) (c c' : Nat) (x : ClientSt) :
    getClient (f.set c x) c' = if c = c' ∧ c < f.length then x else getClient f c' := by
  unfold getClient
  rw [List.getD_eq_getElem?_getD, List.getD_eq_getElem?_getD, List.getElem?_set]
  by_cases h1 : c = c'
  · subst h1
    by_cases h2 : c < f.length
    · simp [h2]
    · simp [h2, List.getElem?_eq_none (Nat.le_of_not_lt h2)]
  · simp [h1]

theorem length_setRemoteQpState (f : FixtureSt) (c q : Nat) (r : QpRef) :
    (setRemoteQpState f c q r).length = f.length := by
  unfold setRemoteQpState; exact List.length_set ..

theorem num_qps_setRemoteQpState (f : FixtureSt) (c q c' : Nat) (r : QpRef) :
    num_qps (setRemoteQpState f c q r) c' = num_qps f c' := by
  unfold num_qps setRemoteQpState
  rw [getClient_set]
  by_cases h : c = c' ∧ c < f.length
  · obtain ⟨h1, h2⟩ := h
    subst h1
    simp [h2, List.length_set]
  · simp [h]

theorem getRemote_setRemoteQpState_self (f : FixtureSt) (c q : Nat) (r : QpRef)
    (hc : c < f.length) (hq : q < num_qps f c) :
    getRemote (setRemoteQpState f c q r) c q = some r := by
  unfold getRemote setRemoteQpState
  rw [getClient_set, if_pos ⟨rfl, hc⟩, List.getD_eq_getElem?_getD,
    List.getElem?_set_self hq]
  rfl

theorem getRemote_setRemoteQpState_other (f : FixtureSt) (c q c' q' : Nat) (r : QpRef)
    (h : c ≠ c' ∨ q ≠ q') :
    getRemote (setRemoteQpState f c q r) c' q' = getRemote f c' q' := by
  unfold getRemote setRemoteQpState
  rw [getClient_set]
  by_cases h1 : c = c' ∧ c < f.length
  · obtain ⟨h2, h3⟩ := h1
    subst h2
    have hq : q ≠ q' := h.resolve_left (by simp)
    rw [if_pos ⟨rfl, h3⟩, List.getD_eq_getElem?_getD, List.getD_eq_getElem?_getD,
      List.getElem?_set_ne hq]
  · rw [if_neg h1]

theorem length_createQps (f : FixtureSt) (c n : Nat) :
    (createQps f c n).length = f.length := by
  unfold createQps; exact List.length_set ..

theorem num_qps_createQps_self (f : FixtureSt) (c n : Nat) (hc : c < f.length) :
    num_qps (createQps f c n) c = num_qps f c + n := by
  unfold num_qps createQps
  rw [getClient_set, if_pos ⟨rfl, hc⟩]
  simp

theorem num_qps_createQps_other (f : FixtureSt) (c n c' : Nat) (h : c ≠ c') :
    num_qps (createQps f c n) c' = num_qps f c' := by
  unfold num_qps createQps
  rw [getClient_set, if_neg (by simp [h])]

theorem getRemote_createQps (f : FixtureSt) (c n c' q : Nat) :
    getRemote (createQps f c n) c' q = getRemote f c' q := by
  unfold getRemote createQps
  rw [getClient_set]
  by_cases h1 : c = c' ∧ c < f.length
  · obtain ⟨h2, h3⟩ := h1
    subst h2
    rw [if_pos ⟨rfl, h3⟩, List.getD_eq_getElem?_getD, List.getD_eq_getElem?_getD,
      List.getElem?_append]
    by_cases hq : q < (getClient f c).length
    · rw [if_pos hq]
    · rw [if_neg hq, List.getElem?_eq_none (Nat.le_of_not_lt hq),
        List.getElem?_replicate]
      by_cases hq2 : q - (getClient f c).length < n
      · rw [if_pos hq2]; rfl
      · rw [if_neg hq2]
  · rw [if_neg h1]

theorem setUpRcClientsQPs_eq_of_inbounds (hs : Handshake) (f : FixtureSt)
    (li lq ri rq : Nat) (hlq : lq < num_qps f li) (hrq : rq < num_qps f ri) :
    setUpRcClientsQPs hs f li lq ri rq =
      (hs (setRemoteQpState (setRemoteQpState f li lq ⟨ri, rq⟩) ri rq ⟨li, lq⟩)
         ⟨li, lq⟩ ⟨ri, rq⟩,
       setRemoteQpState (setRemoteQpState f li lq ⟨ri, rq⟩) ri rq ⟨li, lq⟩) := by
  unfold setUpRcClientsQPs
  rw [if_neg]
  push_neg
  exact ⟨hlq, hrq⟩

theorem crossLink_linkage (f : FixtureSt) (li lq ri rq : Nat)
    (hli : li < f.length) (hri : ri < f.length)
    (hlq : lq < num_qps f li) (hrq : rq < num_qps f ri) :
    getRemote (setRemoteQpState (setRemoteQpState f li lq ⟨ri, rq⟩) ri rq ⟨li, lq⟩) li lq
      = some ⟨ri, rq⟩ ∧
    getRemote (setRemoteQpState (setRemoteQpState f li lq ⟨ri, rq⟩) ri rq ⟨li, lq⟩) ri rq
      = some ⟨li, lq⟩ := by
  have hri1 : ri < (setRemoteQpState f li lq ⟨ri, rq⟩).length := by
    rw [length_setRemoteQpState]; exact hri
  have hrq1 : rq < num_qps (setRemoteQpState f li lq ⟨ri, rq⟩) ri := by
    rw [num_qps_setRemoteQpState]; exact hrq
  refine ⟨?_, getRemote_setRemoteQpState_self _ ri rq ⟨li, lq⟩ hri1 hrq1⟩
  by_cases hsame : ri = li ∧ rq = lq
  · obtain ⟨h1, h2⟩ := hsame
    subst h1; subst h2
    rw [getRemote_setRemoteQpState_self _ ri rq ⟨ri, rq⟩ hri1 hrq1]
  · have hne : ri ≠ li ∨ rq ≠ lq := by
      by_contra hc
      push_neg at hc
      exact hsame ⟨hc.1, hc.2⟩
    rw [getRemote_setRemoteQpState_other _ ri rq li lq ⟨li, lq⟩ hne]
    exact getRemote_setRemoteQpState_self f li lq ⟨ri, rq⟩ hli hlq

theorem doublePair_spec (hs : Handshake) (g : FixtureSt) (i t qpId : Nat)
    (hni : num_qps g i = qpId + 1) (hnt : num_qps g t = qpId + 1) :
    (setUpRcClientsQPs hs (setUpRcClientsQPs hs g i qpId t qpId).2 t qpId i qpId).2 =
      setRemoteQpState (setRemoteQpState
        (setRemoteQpState (setRemoteQpState g i qpId ⟨t, qpId⟩) t qpId ⟨i, qpId⟩)
        t qpId ⟨i, qpId⟩) i qpId ⟨t, qpId⟩ := by
  have eq1 : (setUpRcClientsQPs hs g i qpId t qpId).2 =
      setRemoteQpState (setRemoteQpState g i qpId ⟨t, qpId⟩) t qpId ⟨i, qpId⟩ := by
    rw [setUpRcClientsQPs_eq_of_inbounds hs g i qpId t qpId
      (by rw [hni]; exact Nat.lt_succ_self qpId) (by rw [hnt]; exact Nat.lt_succ_self qpId)]
  rw [eq1]
  rw [setUpRcClientsQPs_eq_of_inbounds hs _ t qpId i qpId
    (by rw [num_qps_setRemoteQpState, num_qps_setRemoteQpState, hnt]
        exact Nat.lt_succ_self qpId)
    (by rw [num_qps_setRemoteQpState, num_qps_setRemoteQpState, hni]
        exact Nat.lt_succ_self qpId)]

theorem createSetUpIteration_spec (hs : Handshake) (f : FixtureSt) (i t qpId : Nat)
    (hit : i ≠ t) (hi : i < f.length) (ht : t < f.length)
    (hni : num_qps f i = qpId) (hnt : num_qps f t = qpId) :
    (createSetUpIteration hs f i t qpId).length = f.length ∧
    num_qps (createSetUpIteration hs f i t qpId) i = qpId + 1 ∧
    num_qps (createSetUpIteration hs f i t qpId) t = qpId + 1 ∧
    (∀ c q, q ≠ qpId → getRemote (createSetUpIteration hs f i t qpId) c q = getRemote f c q) ∧
    getRemote (createSetUpIteration hs f i t qpId) i qpId = some ⟨t, qpId⟩ ∧
    getRemote (createSetUpIteration hs f i t qpId) t qpId = some ⟨i, qpId⟩ := by
  have hlen2 : (createQps (createQps f i 1) t 1).length = f.length := by
    rw [length_createQps, length_createQps]
  have hn2i : num_qps (createQps (createQps f i 1) t 1) i = qpId + 1 := by
    rw [num_qps_createQps_other _ t 1 i (Ne.symm hit),
      num_qps_createQps_self f i 1 hi, hni]
  have hn2t : num_qps (createQps (createQps f i 1) t 1) t = qpId + 1 := by
    rw [num_qps_createQps_self _ t 1 (by rw [length_createQps]; exact ht),
      num_qps_createQps_other f i 1 t hit, hnt]
  have hiter : createSetUpIteration hs f i t qpId =
      setRemoteQpState (setRemoteQpState
        (setRemoteQpState (setRemoteQpState (createQps (createQps f i 1) t 1)
          i qpId ⟨t, qpId⟩) t qpId ⟨i, qpId⟩)
        t qpId ⟨i, qpId⟩) i qpId ⟨t, qpId⟩ := by
    show (setUpRcClientsQPs hs
      (setUpRcClientsQPs hs (createQps (createQps f i 1) t 1) i qpId t qpId).2
      t qpId i qpId).2 = _
    exact doublePair_spec hs (createQps (createQps f i 1) t 1) i t qpId hn2i hn2t
  rw [hiter]
  have hlen3 : (setRemoteQpState (setRemoteQpState
      (setRemoteQpState (createQps (createQps f i 1) t 1)
        i qpId ⟨t, qpId⟩) t qpId ⟨i, qpId⟩) t qpId ⟨i, qpId⟩).length = f.length := by
    rw [length_setRemoteQpState, length_setRemoteQpState, length_setRemoteQpState, hlen2]
  have hname3 : num_qps (setRemoteQpState (setRemoteQpState
      (setRemoteQpState (createQps (createQps f i 1) t 1)
        i qpId ⟨t, qpId⟩) t qpId ⟨i, qpId⟩) t qpId ⟨i, qpId⟩) i = qpId + 1 := by
    rw [num_qps_setRemoteQpState, num_qps_setRemoteQpState, num_qps_setRemoteQpState, hn2i]
  refine ⟨?_, ?_, ?_, ?_, ?_, ?_⟩
  · rw [length_setRemoteQpState, hlen3]
  · rw [num_qps_setRemoteQpState, hname3]
  · rw [num_qps_setRemoteQpState, num_qps_setRemoteQpState, num_qps_setRemoteQpState,
      num_qps_setRemoteQpState, hn2t]
  · intro c q hq
    rw [getRemote_setRemoteQpState_other _ i qpId c q _ (Or.inr fun h => hq h.symm),
      getRemote_setRemoteQpState_other _ t qpId c q _ (Or.inr fun h => hq h.symm),
      getRemote_setRemoteQpState_other _ t qpId c q _ (Or.inr fun h => hq h.symm),
      getRemote_setRemoteQpState_other _ i qpId c q _ (Or.inr fun h => hq h.symm),
      getRemote_createQps, getRemote_createQps]
  · exact getRemote_setRemoteQpState_self _ i qpId ⟨t, qpId⟩
      (by rw [hlen3]; exact hi) (by rw [hname3]; exact Nat.lt_succ_self qpId)
  · rw [getRemote_setRemoteQpState_other _ i qpId t qpId _ (Or.inl hit)]
    exact getRemote_setRemoteQpState_self _ t qpId ⟨i, qpId⟩
      (by rw [length_setRemoteQpState, length_setRemoteQpState, hlen2]; exact ht)
      (by rw [num_qps_setRemoteQpState, num_qps_setRemoteQpState, hn2t]
          exact Nat.lt_succ_self qpId)

/-! ### Claim theorems: QP pairing -/

/-- Claim C1: for every pair of clients and every pair of QP ids each
strictly below its owning client's current QP count,
`SetUpRcClientsQPs` establishes symmetric linkage: afterwards the local
QP's `remote_qp_state` refers to the remote QP and the remote QP's
`remote_qp_state` refers to the local QP — for any handshake outcome. -/
theorem setUpRcClientsQPs_symmetric_linkage (hs : Handshake) (f : FixtureSt)
    (li lq ri rq : Nat) (hli : li < f.length) (hri : ri < f.length)
    (hlq : lq < num_qps f li) (hrq : rq < num_qps f ri) :
    getRemote (setUpRcClientsQPs hs f li lq ri rq).2 li lq = some ⟨ri, rq⟩ ∧
    getRemote (setUpRcClientsQPs hs f li lq ri rq).2 ri rq = some ⟨li, lq⟩ := by
  rw [setUpRcClientsQPs_eq_of_inbounds hs f li lq ri rq hlq hrq]
  exact crossLink_linkage f li lq ri rq hli hri hlq hrq

/-- Witness for C1 on a concrete fixture: client 0 QP 1 paired with
client 1 QP 0. -/
theorem setUpRcClientsQPs_symmetric_linkage_witness :
    getRemote (setUpRcClientsQPs (fun _ _ _ => Status.ok)
      [[⟨none⟩, ⟨none⟩], [⟨none⟩]] 0 1 1 0).2 0 1 = some ⟨1, 0⟩ ∧
    getRemote (setUpRcClientsQPs (fun _ _ _ => Status.ok)
      [[⟨none⟩, ⟨none⟩], [⟨none⟩]] 0 1 1 0).2 1 0 = some ⟨0, 1⟩ :=
  setUpRcClientsQPs_symmetric_linkage (fun _ _ _ => Status.ok)
    [[⟨none⟩, ⟨none⟩], [⟨none⟩]] 0 1 1 0
    (by decide) (by decide) (by decide) (by decide)

/-- Claim C2: when the local QP id is `≥` the local client's QP count or
the remote QP id is `≥` the remote client's QP count,
`SetUpRcClientsQPs` returns the invalid-argument failure and mutates
nothing: the fixture state is returned unchanged and the handshake oracle
is never consulted. -/
theorem setUpRcClientsQPs_out_of_bounds_noop (hs : Handshake) (f : FixtureSt)
    (li lq ri rq : Nat)
    (h : lq ≥ num_qps f li ∨ rq ≥ num_qps f ri) :
    setUpRcClientsQPs hs f li lq ri rq =
      (Status.invalidArgument "Please create qps before setting up the connection!", f) := by
  unfold setUpRcClientsQPs
  rw [if_pos h]

/-- Witness for C2: QP id 2 is out of bounds for a client with 2 QPs. -/
theorem setUpRcClientsQPs_out_of_bounds_noop_witness :
    setUpRcClientsQPs (fun _ _ _ => Status.ok)
      [[⟨none⟩, ⟨none⟩], [⟨none⟩]] 0 2 1 0 =
      (Status.invalidArgument "Please create qps before setting up the connection!",
       [[⟨none⟩, ⟨none⟩], [⟨none⟩]]) :=
  setUpRcClientsQPs_out_of_bounds_noop (fun _ _ _ => Status.ok)
    [[⟨none⟩, ⟨none⟩], [⟨none⟩]] 0 2 1 0 (Or.inl (by decide))

/-- Claim C6: with both QP ids in bounds, the two `QpState` records are
cross-linked before the RC handshake is attempted — the handshake oracle
observes the already-linked state — and the returned status is exactly
the handshake's status, while the symmetric linkage remains set in the
resulting state whatever that status is (in particular when it is a
failure). -/
theorem setUpRcClientsQPs_links_before_handshake (hs : Handshake) (f : FixtureSt)
    (li lq ri rq : Nat) (hli : li < f.length) (hri : ri < f.length)
    (hlq : lq < num_qps f li) (hrq : rq < num_qps f ri) :
    (setUpRcClientsQPs hs f li lq ri rq).1 =
      hs (setUpRcClientsQPs hs f li lq ri rq).2 ⟨li, lq⟩ ⟨ri, rq⟩ ∧
    getRemote (setUpRcClientsQPs hs f li lq ri rq).2 li lq = some ⟨ri, rq⟩ ∧
    getRemote (setUpRcClientsQPs hs f li lq ri rq).2 ri rq = some ⟨li, lq⟩ := by
  rw [setUpRcClientsQPs_eq_of_inbounds hs f li lq ri rq hlq hrq]
  exact ⟨rfl, crossLink_linkage f li lq ri rq hli hri hlq hrq⟩

/-- Witness for C6 with a handshake oracle that always fails: the failure
status is returned and the linkage is still set. -/
theorem setUpRcClientsQPs_links_before_handshake_witness :
    (setUpRcClientsQPs (fun _ _ _ => Status.internal "handshake failed")
      [[⟨none⟩], [⟨none⟩]] 0 0 1 0).1 =
      (fun (_ : FixtureSt) (_ _ : QpRef) => Status.internal "handshake failed")
        (setUpRcClientsQPs (fun _ _ _ => Status.internal "handshake failed")
          [[⟨none⟩], [⟨none⟩]] 0 0 1 0).2 ⟨0, 0⟩ ⟨1, 0⟩ ∧
    getRemote (setUpRcClientsQPs (fun _ _ _ => Status.internal "handshake failed")
      [[⟨none⟩], [⟨none⟩]] 0 0 1 0).2 0 0 = some ⟨1, 0⟩ ∧
    getRemote (setUpRcClientsQPs (fun _ _ _ => Status.internal "handshake failed")
      [[⟨none⟩], [⟨none⟩]] 0 0 1 0).2 1 0 = some ⟨0, 0⟩ :=
  setUpRcClientsQPs_links_before_handshake
    (fun _ _ _ => Status.internal "handshake failed")
    [[⟨none⟩], [⟨none⟩]] 0 0 1 0
    (by decide) (by decide) (by decide) (by decide)

theorem createSetUpLoop_spec (hs : Handshake) (i t : Nat) (hit : i ≠ t) :
    ∀ (r : Nat) (f : FixtureSt) (qpId : Nat),
      i < f.length → t < f.length → num_qps f i = qpId → num_qps f t = qpId →
      (createSetUpLoop hs f i t qpId r).length = f.length ∧
      num_qps (createSetUpLoop hs f i t qpId r) i = qpId + r ∧
      num_qps (createSetUpLoop hs f i t qpId r) t = qpId + r ∧
      (∀ c q, q < qpId →
        getRemote (createSetUpLoop hs f i t qpId r) c q = getRemote f c q) ∧
      (∀ j, qpId ≤ j → j < qpId + r →
        getRemote (createSetUpLoop hs f i t qpId r) i j = some ⟨t, j⟩ ∧
        getRemote (createSetUpLoop hs f i t qpId r) t j = some ⟨i, j⟩) := by
  intro r
  induction r with
  | zero =>
    intro f qpId hi ht hni hnt
    refine ⟨by simp [createSetUpLoop], by simp [createSetUpLoop, hni],
      by simp [createSetUpLoop, hnt], fun c q _ => by simp [createSetUpLoop],
      fun j h1 h2 => absurd h2 (by omega)⟩
  | succ n ih =>
    intro f qpId hi ht hni hnt
    obtain ⟨hlen, hni1, hnt1, hframe, hlinki, hlinkt⟩ :=
      createSetUpIteration_spec hs f i t qpId hit hi ht hni hnt
    obtain ⟨ilen, ini, jnt, iframe, ilink⟩ :=
      ih (createSetUpIteration hs f i t qpId) (qpId + 1)
        (by rw [hlen]; exact hi) (by rw [hlen]; exact ht) hni1 hnt1
    rw [createSetUpLoop]
    refine ⟨ilen.trans hlen, by omega, by omega, ?_, ?_⟩
    · intro c q hq
      rw [iframe c q (by omega), hframe c q (by omega)]
    · intro j h1 h2
      by_cases hj : j = qpId
      · subst hj
        rw [iframe i j (by omega), iframe t j (by omega)]
        exact ⟨hlinki, hlinkt⟩
      · exact ilink j (by omega) (by omega)

/-- Claim C7: `CreateSetUpRcQps(initiator, target, k)` on two distinct
clients with equal QP counts `n` (the `DCHECK_EQ` precondition) leaves
each client with `n + k` QPs, and for every index `j` in `[n, n + k)` the
two `SetUpRcClientsQPs` calls of that iteration leave initiator QP `j`
and target QP `j` bidirectionally paired. The handshake oracle `hs` is
universally quantified, so this holds even when individual pairings fail:
a failing iteration does not abort the remaining ones. -/
theorem createSetUpRcQps_bidirectional_pairs (hs : Handshake) (f : FixtureSt)
    (i t k : Nat) (hit : i ≠ t) (hi : i < f.length) (ht : t < f.length)
    (heq : num_qps f t = num_qps f i) :
    num_qps (createSetUpRcQps hs f i t k) i = num_qps f i + k ∧
    num_qps (createSetUpRcQps hs f i t k) t = num_qps f i + k ∧
    ∀ j, num_qps f i ≤ j → j < num_qps f i + k →
      getRemote (createSetUpRcQps hs f i t k) i j = some ⟨t, j⟩ ∧
      getRemote (createSetUpRcQps hs f i t k) t j = some ⟨i, j⟩ := by
  have h := createSetUpLoop_spec hs i t hit k f (num_qps f i) hi ht rfl heq
  unfold createSetUpRcQps
  exact ⟨h.2.1, h.2.2.1, h.2.2.2.2⟩

/-- Witness for C7: two clients starting empty, two QPs created and
paired per client, under an always-failing handshake oracle — the loop
still completes all iterations and sets every linkage. -/
theorem createSetUpRcQps_bidirectional_pairs_witness :
    num_qps (createSetUpRcQps (fun _ _ _ => Status.internal "handshake failed")
      [[], []] 0 1 2) 0 = num_qps [[], []] 0 + 2 ∧
    num_qps (createSetUpRcQps (fun _ _ _ => Status.internal "handshake failed")
      [[], []] 0 1 2) 1 = num_qps [[], []] 0 + 2 ∧
    ∀ j, num_qps [[], []] 0 ≤ j → j < num_qps [[], []] 0 + 2 →
      getRemote (createSetUpRcQps (fun _ _ _ => Status.internal "handshake failed")
        [[], []] 0 1 2) 0 j = some ⟨1, j⟩ ∧
      getRemote (createSetUpRcQps (fun _ _ _ => Status.internal "handshake failed")
        [[], []] 0 1 2) 1 j = some ⟨0, j⟩ :=
  createSetUpRcQps_bidirectional_pairs (fun _ _ _ => Status.internal "handshake failed")
    [[], []] 0 1 2 (by decide) (by decide) (by decide) rfl

/-! ### Claim theorems: async event monitor -/

/-- Claim C8: when the zero-timeout poll reports no event ready (return
value `0`), `PollAndAckAsyncEvents` returns `OkStatus` immediately and the
channel state — pending queue and acknowledgment log alike — is unchanged:
no event is read and no acknowledgment is issued. -/
theorem pollAndAckAsyncEvents_no_event_ok (ch : EventChannel)
    (h : pollRet ch = 0) :
    pollAndAckAsyncEvents ch = (Status.ok, ch) := by
  unfold pollAndAckAsyncEvents
  simp [h]

/-- Witness for C8 on an event-free channel. -/
theorem pollAndAckAsyncEvents_no_event_ok_witness :
    pollAndAckAsyncEvents ⟨[], [], none, false⟩ = (Status.ok, ⟨[], [], none, false⟩) :=
  pollAndAckAsyncEvents_no_event_ok ⟨[], [], none, false⟩ (by decide)

/-- Claim C9: when the poll primitive fails (negative return, errno `e`),
`PollAndAckAsyncEvents` returns an internal error whose message carries
the OS error code, and the channel state is unchanged: no event read and
no acknowledgment is attempted. -/
theorem pollAndAckAsyncEvents_poll_failure (ch : EventChannel) (e : Nat)
    (h : ch.pollErrno = some e) :
    pollAndAckAsyncEvents ch =
      (Status.internal ("poll failed with errno " ++ toString e ++ " on async event fd."),
       ch) := by
  have hret : pollRet ch = -1 := by unfold pollRet; rw [h]
  unfold pollAndAckAsyncEvents
  rw [hret]
  simp [h]

/-- Witness for C9 with errno 4 (`EINTR`). -/
theorem pollAndAckAsyncEvents_poll_failure_witness :
    pollAndAckAsyncEvents ⟨[⟨5⟩], [], some 4, false⟩ =
      (Status.internal "poll failed with errno 4 on async event fd.",
       ⟨[⟨5⟩], [], some 4, false⟩) := by
  have h := pollAndAckAsyncEvents_poll_failure ⟨[⟨5⟩], [], some 4, false⟩ 4 rfl
  simpa using h

/-- Claim C10: when the poll reports readiness but `ibv_get_async_event`
loses the race and finds no event, `PollAndAckAsyncEvents` returns the
unavailable error and the channel state is unchanged — in particular the
acknowledgment log is untouched, so repeated racing calls leave the
acknowledgment count unchanged. -/
theorem pollAndAckAsyncEvents_read_race (ch : EventChannel)
    (h1 : ch.pollErrno = none) (h2 : ch.readRace = true) :
    pollAndAckAsyncEvents ch = (Status.unavailable "Async event doesn\x27t exist.", ch) ∧
    (pollAndAckAsyncEvents ch).2.acked = ch.acked := by
  have hret : pollRet ch = 1 := by unfold pollRet; rw [h1, h2]; simp
  have hget : ibvGetAsyncEvent ch = (none, ch) := by unfold ibvGetAsyncEvent; rw [h2]; simp
  unfold pollAndAckAsyncEvents
  rw [hret, hget]
  simp

/-- Witness for C10 on a racing channel. -/
theorem pollAndAckAsyncEvents_read_race_witness :
    pollAndAckAsyncEvents ⟨[], [⟨9⟩], none, true⟩ =
      (Status.unavailable "Async event doesn\x27t exist.", ⟨[], [⟨9⟩], none, true⟩) ∧
    (pollAndAckAsyncEvents ⟨[], [⟨9⟩], none, true⟩).2.acked = [⟨9⟩] :=
  pollAndAckAsyncEvents_read_race ⟨[], [⟨9⟩], none, true⟩ rfl rfl

/-- Claim C4: when an event is successfully read (poll ready, no race),
`PollAndAckAsyncEvents` acknowledges exactly that event exactly once —
the acknowledgment log is extended by precisely one entry — and returns
an internal error whose message carries the event's type tag. -/
theorem pollAndAckAsyncEvents_ack_exactly_once (ch : EventChannel)
    (e : AsyncEvent) (rest : List AsyncEvent)
    (h1 : ch.pollErrno = none) (h2 : ch.readRace = false) (h3 : ch.queue = e :: rest) :
    pollAndAckAsyncEvents ch =
      (Status.internal ("Verbs async event received event type: " ++ toString e.event_type),
       ⟨rest, ch.acked ++ [e], ch.pollErrno, ch.readRace⟩) := by
  obtain ⟨q, a, pe, rr⟩ := ch
  simp only at h1 h2 h3
  subst h1; subst h2; subst h3
  unfold pollAndAckAsyncEvents pollRet ibvGetAsyncEvent ibvAckAsyncEvent eventErrorStatus
  simp

/-- Witness for C4: a single queued event of type 5 is drained and
acknowledged. -/
theorem pollAndAckAsyncEvents_ack_exactly_once_witness :
    pollAndAckAsyncEvents ⟨[⟨5⟩, ⟨7⟩], [], none, false⟩ =
      (Status.internal "Verbs async event received event type: 5",
       ⟨[⟨7⟩], [⟨5⟩], none, false⟩) := by
  have h := pollAndAckAsyncEvents_ack_exactly_once ⟨[⟨5⟩, ⟨7⟩], [], none, false⟩ ⟨5⟩ [⟨7⟩]
    rfl rfl rfl
  simpa using h

theorem pollCalls_drain_aux (q : List AsyncEvent) :
    ∀ ch : EventChannel, ch.pollErrno = none → ch.readRace = false → ch.queue = q →
      pollCalls (q.length + 1) ch =
        (q.map eventErrorStatus ++ [Status.ok],
         ⟨[], ch.acked ++ q, none, false⟩) := by
  induction q with
  | nil =>
    intro ch h1 h2 h3
    obtain ⟨qu, a, pe, rr⟩ := ch
    simp only at h1 h2 h3
    subst h1; subst h2; subst h3
    simp [pollCalls, pollAndAckAsyncEvents, pollRet]
  | cons e rest ih =>
    intro ch h1 h2 h3
    have hstep := pollAndAckAsyncEvents_ack_exactly_once ch e rest h1 h2 h3
    have hrec := ih ⟨rest, ch.acked ++ [e], ch.pollErrno, ch.readRace⟩
      (by simp [h1]) (by simp [h2]) rfl
    rw [h1, h2] at hstep hrec
    show pollCalls (rest.length + 1 + 1) ch = _
    rw [pollCalls]
    simp only [hstep, hrec]
    simp [eventErrorStatus, List.append_assoc]

/-- Claim C3: each call to `PollAndAckAsyncEvents` drains at most one
event; starting from a channel with `N` queued events and no new
arrivals, the first `N` calls each return a failure (the internal error
of the drained event, one per event, each acknowledged exactly once) and
the `(N+1)`-th call is the first to return success. -/
theorem pollAndAckAsyncEvents_drains_backlog (ch : EventChannel) (N : Nat)
    (h1 : ch.pollErrno = none) (h2 : ch.readRace = false)
    (hN : ch.queue.length = N) :
    pollCalls (N + 1) ch =
      (ch.queue.map eventErrorStatus ++ [Status.ok],
       ⟨[], ch.acked ++ ch.queue, none, false⟩) ∧
    ∀ s ∈ ch.queue.map eventErrorStatus, s ≠ Status.ok := by
  constructor
  · rw [← hN]
    exact pollCalls_drain_aux ch.queue ch h1 h2 rfl
  · intro s hs
    simp only [List.mem_map] at hs
    obtain ⟨e, _, he⟩ := hs
    rw [← he]
    unfold eventErrorStatus
    intro hcontra
    cases hcontra

/-- Witness for C3 with a backlog of two events: two failures, then the
first success on the third call. -/
theorem pollAndAckAsyncEvents_drains_backlog_witness :
    pollCalls 3 ⟨[⟨5⟩, ⟨7⟩], [], none, false⟩ =
      ([Status.internal "Verbs async event received event type: 5",
        Status.internal "Verbs async event received event type: 7", Status.ok],
       ⟨[], [⟨5⟩, ⟨7⟩], none, false⟩) := by
  have h := pollAndAckAsyncEvents_drains_backlog ⟨[⟨5⟩, ⟨7⟩], [], none, false⟩ 2
    rfl rfl rfl
  simpa [eventErrorStatus] using h.1

/-! ### Claim theorems: halt/drain sequencer -/

/-- The expected trace of the drain loop over a backlog `q`: per drained
event, one `PollAndAckAsyncEvents` call returning its error followed by
the log of that error's message; then the final successful call. Used
only to state what `haltDrain` produces. -/
def drainTrace : List AsyncEvent → List HaltAction
  | [] => [HaltAction.pollAndAck Status.ok]
  | e :: rest =>
    HaltAction.pollAndAck (eventErrorStatus e) ::
      HaltAction.logError (eventErrorStatus e).message :: drainTrace rest

theorem haltDrain_spec (q : List AsyncEvent) :
    ∀ ch : EventChannel, ch.pollErrno = none → ch.readRace = false → ch.queue = q →
      haltDrain (q.length + 1) ch =
        some (drainTrace q, ⟨[], ch.acked ++ q, none, false⟩) := by
  induction q with
  | nil =>
    intro ch h1 h2 h3
    obtain ⟨qu, a, pe, rr⟩ := ch
    simp only at h1 h2 h3
    subst h1; subst h2; subst h3
    simp [haltDrain, drainTrace, pollAndAckAsyncEvents, pollRet]
  | cons e rest ih =>
    intro ch h1 h2 h3
    have hstep := pollAndAckAsyncEvents_ack_exactly_once ch e rest h1 h2 h3
    have hrec := ih ⟨rest, ch.acked ++ [e], ch.pollErrno, ch.readRace⟩
      (by simp [h1]) (by simp [h2]) rfl
    rw [h1, h2] at hstep hrec
    show haltDrain (rest.length + 1 + 1) ch = _
    rw [haltDrain]
    simp only [hstep, hrec]
    rw [if_neg (by intro hc; cases hc)]
    simp [drainTrace, eventErrorStatus, List.append_assoc]

theorem dump_not_mem_drainTrace (q : List AsyncEvent) :
    HaltAction.dumpPendingOps ∉ drainTrace q := by
  induction q with
  | nil => simp [drainTrace]
  | cons e rest ih => simp [drainTrace, ih]

theorem logError_mem_drainTrace (q : List AsyncEvent) :
    ∀ e ∈ q, HaltAction.logError (eventErrorStatus e).message ∈ drainTrace q := by
  induction q with
  | nil => simp
  | cons a rest ih =>
    intro e he
    rcases List.mem_cons.mp he with h | h
    · subst h
      simp [drainTrace]
    · simp only [drainTrace, List.mem_cons]
      exact Or.inr (Or.inr (ih e h))

theorem drainTrace_getLast (q : List AsyncEvent) :
    (drainTrace q).getLast? = some (HaltAction.pollAndAck Status.ok) := by
  induction q with
  | nil => simp [drainTrace]
  | cons e rest ih =>
    have hne : drainTrace rest ≠ [] := by
      cases rest <;> simp [drainTrace]
    simp [drainTrace, List.getLast?_cons, ih, hne]

/-- Claim C5: `HaltExecution` dumps the client's in-flight operations
exactly once, as the very first observable step and before any event
channel interaction; on a finite backlog with no new arrivals it
terminates with the queue drained (here: fuel `N + 1` suffices and the
final queue is empty), every drained fault's message is logged, and the
last step before returning is the `PollAndAckAsyncEvents` call that
reports success. -/
theorem haltExecution_dump_once_and_terminates (ch : EventChannel)
    (h1 : ch.pollErrno = none) (h2 : ch.readRace = false) :
    haltExecution (ch.queue.length + 1) ch =
      some (HaltAction.dumpPendingOps :: drainTrace ch.queue,
            ⟨[], ch.acked ++ ch.queue, none, false⟩) ∧
    (HaltAction.dumpPendingOps :: drainTrace ch.queue).count HaltAction.dumpPendingOps = 1 ∧
    (HaltAction.dumpPendingOps :: drainTrace ch.queue).head? =
      some HaltAction.dumpPendingOps ∧
    (∀ e ∈ ch.queue, HaltAction.logError (eventErrorStatus e).message ∈ drainTrace ch.queue) ∧
    (drainTrace ch.queue).getLast? = some (HaltAction.pollAndAck Status.ok) := by
  refine ⟨?_, ?_, rfl, logError_mem_drainTrace ch.queue, drainTrace_getLast ch.queue⟩
  · unfold haltExecution
    rw [haltDrain_spec ch.queue ch h1 h2 rfl]
  · rw [List.count_cons_self, List.count_eq_zero.mpr (dump_not_mem_drainTrace ch.queue)]

/-- Witness for C5 on a backlog of two events: the dump happens first,
both fault messages are logged, and the trace ends with the successful
poll. -/
theorem haltExecution_dump_once_and_terminates_witness :
    haltExecution 3 ⟨[⟨5⟩, ⟨7⟩], [], none, false⟩ =
      some ([HaltAction.dumpPendingOps,
             HaltAction.pollAndAck (Status.internal "Verbs async event received event type: 5"),
             HaltAction.logError "Verbs async event received event type: 5",
             HaltAction.pollAndAck (Status.internal "Verbs async event received event type: 7"),
             HaltAction.logError "Verbs async event received event type: 7",
             HaltAction.pollAndAck Status.ok],
            ⟨[], [⟨5⟩, ⟨7⟩], none, false⟩) := by
  have h := haltExecution_dump_once_and_terminates ⟨[⟨5⟩, ⟨7⟩], [], none, false⟩ rfl rfl
  simpa [drainTrace, eventErrorStatus, Status.message] using h.1

end RdmaUnitTest
